/-
  Verification development for the RoadWatch road-damage monitoring pipeline.

  Shallow embedding of the repository sources:
  - functions/src/index.ts : geohash encoding, haversine distance,
    the aggregation trigger and the retention sweeper;
  - src/utils/signalProcessor.ts : the windowing signal processor;
  - src/pages/Dashboard.tsx : the detection persistence gate;
  - src/types.ts : the data model and DEFAULT_CONFIG.

  JavaScript numbers are modelled as exact rationals wherever only field
  arithmetic and order comparisons occur, and as real numbers where
  transcendental functions (sqrt, trigonometry, log10) are involved.
  The Firestore document store is modelled as a list of records; query
  order is list order.
-/
import Mathlib

namespace RoadMonitor

/-- Defect classes, from types.ts (pothole, speed breaker, normal). -/
inductive DefectType where
  | pothole
  | speed_breaker
  | normal
deriving DecidableEq, Repr

/-- GPS fix carried by a sensor reading (types.ts, `SensorReading.gps`). -/
structure GpsData where
  latitude : ℚ
  longitude : ℚ
  accuracy : ℚ
  speed : Option ℚ
deriving DecidableEq, Repr

/-- One instant sample (types.ts, `SensorReading`); `ax ay az` are the
accelerometer components `accelerometer.{x,y,z}`. -/
structure SensorReading where
  timestamp : ℚ
  ax : ℚ
  ay : ℚ
  az : ℚ
  gps : GpsData
deriving DecidableEq, Repr

/-- Zero-valued reading, used only as the default for `headD`/`getLastD`
when mirroring `buffer[0]` / `buffer[buffer.length - 1]` (which the source
only evaluates on buffers of length at least 2). -/
def defaultReading : SensorReading := ⟨0, 0, 0, 0, ⟨0, 0, 0, none⟩⟩

instance : Inhabited SensorReading := ⟨defaultReading⟩

/-- Derived window summary (types.ts, `ProcessedWindow`); the centroid pair
is flattened into two fields. -/
structure ProcessedWindow where
  startTime : ℚ
  endTime : ℚ
  magnitude : ℝ
  peakMagnitude : ℝ
  averageSpeed : ℚ
  centroidLat : ℚ
  centroidLng : ℚ
  sampleCount : ℕ

/-- Classifier output (types.ts, `DetectionResult`). -/
structure DetectionResult where
  defectType : DefectType
  confidence : ℝ
  severity : ℚ

/-- Configuration (types.ts, `AppConfig`). -/
structure AppConfig where
  minSpeedThreshold : ℚ
  windowDurationMs : ℚ
  magnitudeThreshold : ℝ
  confidenceThreshold : ℝ
  sampleRateHz : ℚ
  aggregationRadiusMeters : ℚ

/-- types.ts, `DEFAULT_CONFIG`. -/
noncomputable def DEFAULT_CONFIG : AppConfig :=
  { minSpeedThreshold := 5
    windowDurationMs := 1500
    magnitudeThreshold := 5/2
    confidenceThreshold := 7/10
    sampleRateHz := 60
    aggregationRadiusMeters := 20 }

/-! ## Signal processor arithmetic (signalProcessor.ts) -/

/-- `SignalProcessor.calculateMagnitude`: total acceleration magnitude with
the constant gravity estimate 9.81 removed, absolute value taken. -/
noncomputable def calculateMagnitude (x y z : ℚ) : ℝ :=
  |Real.sqrt ((x : ℝ) ^ 2 + (y : ℝ) ^ 2 + (z : ℝ) ^ 2) - 981 / 100|

/-- `SignalProcessor.calculateRMS`: 0 on the empty list, otherwise the square
root of the mean of the squares (the source accumulates with `reduce`). -/
noncomputable def calculateRMS (values : List ℝ) : ℝ :=
  if values.length = 0 then 0
  else Real.sqrt ((values.foldl (fun sum v => sum + v ^ 2) 0) / values.length)

/-- `SignalProcessor.average`: 0 on the empty list, otherwise sum divided by
length. -/
def average (values : List ℚ) : ℚ :=
  if values.length = 0 then 0 else (values.foldl (· + ·) 0) / values.length

/-- `Math.max(...magnitudes)`: maximum of a list; the source only applies it
to nonempty lists, the empty case is given the junk value 0. -/
noncomputable def listMax : List ℝ → ℝ
  | [] => 0
  | v :: vs => vs.foldl max v

/-- `SignalProcessor.processWindow`: summary statistics of a selected slice.
`averageSpeed` is in km/h (the source multiplies the m/s mean by 3.6). -/
noncomputable def processWindow (readings : List SensorReading) : ProcessedWindow :=
  let magnitudes := readings.map (fun r => calculateMagnitude r.ax r.ay r.az)
  let speeds := readings.filterMap (fun r => r.gps.speed)
  let latitudes := readings.map (fun r => r.gps.latitude)
  let longitudes := readings.map (fun r => r.gps.longitude)
  { startTime := (readings.headD defaultReading).timestamp
    endTime := (readings.getLastD defaultReading).timestamp
    magnitude := calculateRMS magnitudes
    peakMagnitude := listMax magnitudes
    averageSpeed := if 0 < speeds.length then average speeds * (18 / 5) else 0
    centroidLat := average latitudes
    centroidLng := average longitudes
    sampleCount := readings.length }

/-- Nominal half sample count `(windowDurationMs / 1000) * sampleRateHz * 0.5`
from `SignalProcessor.shouldEmitWindow`. -/
def expectedSamples (cfg : AppConfig) : ℚ :=
  cfg.windowDurationMs / 1000 * cfg.sampleRateHz * (1 / 2)

/-- `SignalProcessor.shouldEmitWindow`: the three early-return rejections,
stated as the conjunction of their negations. -/
def ShouldEmitWindow (cfg : AppConfig) (w : ProcessedWindow) : Prop :=
  ¬(w.averageSpeed < cfg.minSpeedThreshold) ∧
  ¬(w.peakMagnitude < cfg.magnitudeThreshold) ∧
  ¬((w.sampleCount : ℚ) < expectedSamples cfg)

noncomputable instance (cfg : AppConfig) (w : ProcessedWindow) :
    Decidable (ShouldEmitWindow cfg w) := by
  unfold ShouldEmitWindow; infer_instance

/-! ## Signal processor state machine (signalProcessor.ts)

`checkWindowComplete` acts on the buffer and may complete one window: it
returns the new buffer together with the selected readings of the completed
window (if any). Emission of a completed window to the callback is the
separate gate `ShouldEmitWindow` on `processWindow` of the selection. -/

/-- `SignalProcessor.checkWindowComplete`. -/
def checkWindowComplete (cfg : AppConfig) (buf : List SensorReading) :
    List SensorReading × Option (List SensorReading) :=
  if buf.length < 2 then (buf, none) else
  let windowStart := (buf.headD defaultReading).timestamp
  let windowEnd := (buf.getLastD defaultReading).timestamp
  if cfg.windowDurationMs ≤ windowEnd - windowStart then
    let windowReadings := buf.filter
      (fun r => decide (windowStart ≤ r.timestamp ∧
        r.timestamp < windowStart + cfg.windowDurationMs))
    if 0 < windowReadings.length then
      (buf.filter
        (fun r => decide (windowStart + cfg.windowDurationMs / 2 ≤ r.timestamp)),
       some windowReadings)
    else (buf, none)
  else (buf, none)

/-- `SignalProcessor.pruneOldReadings`; `now` is the wall clock
(`Date.now()`) at insertion time, passed explicitly. -/
def pruneOldReadings (cfg : AppConfig) (now : ℚ) (buf : List SensorReading) :
    List SensorReading :=
  buf.filter (fun r => decide (now - cfg.windowDurationMs * 2 < r.timestamp))

/-- `SignalProcessor.addReading`: push, prune, then check window completion. -/
def addReading (cfg : AppConfig) (now : ℚ) (r : SensorReading)
    (buf : List SensorReading) : List SensorReading × Option (List SensorReading) :=
  checkWindowComplete cfg (pruneOldReadings cfg now (buf ++ [r]))

/-- A whole run of `addReading` calls: each input pairs the wall clock with
the reading.  Returns the final buffer and the list of completed windows
(each a list of selected readings), in order of completion. -/
def runProcessor (cfg : AppConfig) :
    List (ℚ × SensorReading) → List SensorReading →
    List SensorReading × List (List SensorReading)
  | [], buf => (buf, [])
  | p :: rest, buf =>
    let step := addReading cfg p.1 p.2 buf
    let next := runProcessor cfg rest step.1
    (next.1, step.2.toList ++ next.2)

/-- Start timestamp of a completed window (the source reads
`readings[0].timestamp`). -/
def wStart (w : List SensorReading) : ℚ := (w.headD defaultReading).timestamp

/-- The windows actually handed to the window callback: completed windows
whose summary passes the emission gate. -/
noncomputable def emittedWindows (cfg : AppConfig)
    (inputs : List (ℚ × SensorReading)) : List ProcessedWindow :=
  ((runProcessor cfg inputs []).2.map processWindow).filter
    (fun w => decide (ShouldEmitWindow cfg w))

/-! ## Geohash encoding (functions/src/index.ts, `encodeGeohash`) -/

/-- The base-32 geohash alphabet. -/
def BASE32 : List Char := "0123456789bcdefghjkmnpqrstuvwxyz".toList

/-- Loop state of `encodeGeohash`. -/
structure GeohashState where
  idx : ℕ
  bit : ℕ
  evenBit : Bool
  latMin : ℚ
  latMax : ℚ
  lngMin : ℚ
  lngMax : ℚ
deriving DecidableEq, Repr

/-- One iteration of the `encodeGeohash` while-loop body: refine one bit and
emit a character once five bits are accumulated. -/
def geohashStep (lat lng : ℚ) (s : GeohashState) : GeohashState × Option Char :=
  let s1 :=
    if s.evenBit then
      let lngMid := (s.lngMin + s.lngMax) / 2
      if lngMid ≤ lng then { s with idx := s.idx * 2 + 1, lngMin := lngMid }
      else { s with idx := s.idx * 2, lngMax := lngMid }
    else
      let latMid := (s.latMin + s.latMax) / 2
      if latMid ≤ lat then { s with idx := s.idx * 2 + 1, latMin := latMid }
      else { s with idx := s.idx * 2, latMax := latMid }
  let s2 := { s1 with evenBit := !s.evenBit, bit := s.bit + 1 }
  if s2.bit = 5 then
    ({ s2 with bit := 0, idx := 0 }, some (BASE32.getD s2.idx ' '))
  else (s2, none)

/-- `n` iterations of the loop body, collecting the emitted characters and
the final state. -/
def encodeGeohashAux (lat lng : ℚ) : ℕ → GeohashState → List Char × GeohashState
  | 0, s => ([], s)
  | n + 1, s =>
    let step := geohashStep lat lng s
    let rest := encodeGeohashAux lat lng n step.1
    (step.2.toList ++ rest.1, rest.2)

/-- Initial loop state of `encodeGeohash`. -/
def initGeohashState : GeohashState :=
  { idx := 0, bit := 0, evenBit := true
    latMin := -90, latMax := 90, lngMin := -180, lngMax := 180 }

/-- `encodeGeohash(lat, lng, precision)`: the while-loop runs until
`precision` characters are produced, which is exactly `5 * precision` bit
iterations (one character is emitted every 5 bits, starting from bit 0). -/
def encodeGeohash (lat lng : ℚ) (precision : ℕ) : List Char :=
  (encodeGeohashAux lat lng (5 * precision) initGeohashState).1

/-! ## Retention sweeper (functions/src/index.ts, `cleanupOldDetections`) -/

/-- An aggregated report document (types.ts, `AggregatedReport`; the shape
written by `aggregateDetection`). -/
structure AggregatedReport where
  geohash : List Char
  locationLat : ℚ
  locationLng : ℚ
  defectType : DefectType
  averageSeverity : ℚ
  reportCount : ℕ
  uniqueUsers : List String
  firstReported : ℚ
  lastReported : ℚ
  credibilityScore : ℝ

/-- `cleanupOldDetections`: one scheduled run at wall clock `now`. The query
selects documents with `reportCount == 1` and `lastReported < cutoff`
(cutoff = now minus 30 days in milliseconds) and deletes them in one batch;
the resulting store keeps exactly the complement. -/
def cleanupOldDetections (now : ℚ) (store : List AggregatedReport) :
    List AggregatedReport :=
  let cutoff := now - 30 * 24 * 60 * 60 * 1000
  store.filter (fun r => decide (¬(r.reportCount = 1 ∧ r.lastReported < cutoff)))

/-! ## Haversine distance (functions/src/index.ts, `calculateDistance`) -/

/-- JavaScript `Math.atan2(y, x)`, by case split on the quadrant. -/
noncomputable def atan2 (y x : ℝ) : ℝ :=
  if 0 < x then Real.arctan (y / x)
  else if x < 0 ∧ 0 ≤ y then Real.arctan (y / x) + Real.pi
  else if x < 0 ∧ y < 0 then Real.arctan (y / x) - Real.pi
  else if x = 0 ∧ 0 < y then Real.pi / 2
  else if x = 0 ∧ y < 0 then -(Real.pi / 2)
  else 0

/-- `calculateDistance`: haversine great-circle distance in meters,
Earth radius 6,371,000 m. -/
noncomputable def calculateDistance (lat1 lon1 lat2 lon2 : ℚ) : ℝ :=
  let R : ℝ := 6371000
  let dLat := ((lat2 : ℝ) - (lat1 : ℝ)) * Real.pi / 180
  let dLon := ((lon2 : ℝ) - (lon1 : ℝ)) * Real.pi / 180
  let a :=
    Real.sin (dLat / 2) * Real.sin (dLat / 2) +
      Real.cos ((lat1 : ℝ) * Real.pi / 180) * Real.cos ((lat2 : ℝ) * Real.pi / 180) *
        (Real.sin (dLon / 2) * Real.sin (dLon / 2))
  let c := 2 * atan2 (Real.sqrt a) (Real.sqrt (1 - a))
  R * c

/-! ## Aggregation engine (functions/src/index.ts, `aggregateDetection`) -/

/-- A persisted classified event (types.ts, `Detection`); the location pair
is flattened into two fields. -/
structure Detection where
  sessionId : String
  userId : String
  timestamp : ℚ
  locationLat : ℚ
  locationLng : ℚ
  defectType : DefectType
  confidence : ℝ
  severity : ℚ
  processedWindow : ProcessedWindow

/-- The Firestore vicinity query fused with the matching loop: the query
keeps reports whose geohash lies in the lexicographic range
`[prefix5, prefix5 + uiF8FF]` — for the stored precision-7 geohashes this
is exactly "starts with the 5-character prefix `geo5`" — and whose
`defectType` equals the one of the detection; the loop then takes the first such
candidate whose haversine distance from the detection is at most
`AGGREGATION_RADIUS` = 25 meters.  Returns the matched index in the store
together with the matched report. -/
noncomputable def findMatch (lat lng : ℚ) (dt : DefectType) (geo5 : List Char) :
    ℕ → List AggregatedReport → Option (ℕ × AggregatedReport)
  | _, [] => none
  | i, r :: rest =>
    if geo5 <+: r.geohash ∧ r.defectType = dt ∧
        calculateDistance lat lng r.locationLat r.locationLng ≤ 25 then
      some (i, r)
    else findMatch lat lng dt geo5 (i + 1) rest

/-- The matched-report update block of `aggregateDetection`: push the user
if absent, bump the count, take the running severity mean, stamp
`lastReported`, and recompute the credibility score
`min(1, 0.3 + uniqueUsers.length * 0.15 + log10(reportCount) * 0.2)`.
Only the five listed fields are written (`matchedReport.ref.update`). -/
noncomputable def updatedReport (existing : AggregatedReport) (d : Detection) :
    AggregatedReport :=
  let uniqueUsers :=
    if d.userId ∈ existing.uniqueUsers then existing.uniqueUsers
    else existing.uniqueUsers ++ [d.userId]
  let newReportCount := existing.reportCount + 1
  let newAverageSeverity :=
    (existing.averageSeverity * existing.reportCount + d.severity) / newReportCount
  let credibilityScore :=
    min 1 ((3 / 10 : ℝ) + (uniqueUsers.length : ℝ) * (15 / 100) +
      Real.logb 10 (newReportCount : ℝ) * (2 / 10))
  { existing with
    reportCount := newReportCount
    averageSeverity := newAverageSeverity
    uniqueUsers := uniqueUsers
    lastReported := d.timestamp
    credibilityScore := credibilityScore }

/-- The new-report creation block of `aggregateDetection`. -/
noncomputable def newReport (d : Detection) (gh : List Char) : AggregatedReport :=
  { geohash := gh
    locationLat := d.locationLat
    locationLng := d.locationLng
    defectType := d.defectType
    averageSeverity := d.severity
    reportCount := 1
    uniqueUsers := [d.userId]
    firstReported := d.timestamp
    lastReported := d.timestamp
    credibilityScore := (3 / 10 : ℝ) }

/-- `aggregateDetection`: one invocation of the onCreate trigger against the
store; `normal` detections are skipped; otherwise match-or-create. -/
noncomputable def aggregateDetection (store : List AggregatedReport)
    (d : Detection) : List AggregatedReport :=
  if d.defectType = DefectType.normal then store
  else
    let gh := encodeGeohash d.locationLat d.locationLng 7
    match findMatch d.locationLat d.locationLng d.defectType (gh.take 5) 0 store with
    | some m => store.set m.1 (updatedReport m.2 d)
    | none => store ++ [newReport d gh]

/-! ## Dashboard persistence gate (src/pages/Dashboard.tsx,
`handleProcessedWindow`) -/

/-- `handleProcessedWindow`, after the classifier returned `result` for
`w`: bails out when the session or user id is missing, and persists a
detection record only when the defect type is not `normal` and the
confidence reaches `DEFAULT_CONFIG.confidenceThreshold`.  Returns the
persisted record, or `none` when nothing is saved. -/
noncomputable def handleProcessedWindow (sessionId userId : Option String)
    (w : ProcessedWindow) (result : DetectionResult) : Option Detection :=
  match sessionId, userId with
  | some sid, some uid =>
    if result.defectType ≠ DefectType.normal ∧
        DEFAULT_CONFIG.confidenceThreshold ≤ result.confidence then
      some { sessionId := sid
             userId := uid
             timestamp := w.endTime
             locationLat := w.centroidLat
             locationLng := w.centroidLng
             defectType := result.defectType
             confidence := result.confidence
             severity := result.severity
             processedWindow := w }
    else none
  | _, _ => none

/-! ## Concrete records used by witnesses -/

/-- Concrete matched report for the C1 witness. -/
noncomputable def repC1 : AggregatedReport :=
  { geohash := encodeGeohash 28 77 7, locationLat := 28, locationLng := 77
    defectType := DefectType.pothole, averageSeverity := 4, reportCount := 1
    uniqueUsers := [("userA")], firstReported := 0, lastReported := 0
    credibilityScore := 3 / 10 }

/-- Concrete second detection for the C1 witness, at the same point. -/
noncomputable def detC1 : Detection :=
  { sessionId := ("sessB"), userId := ("userB"), timestamp := 1000
    locationLat := 28, locationLng := 77, defectType := DefectType.pothole
    confidence := 9 / 10, severity := 6
    processedWindow := ⟨0, 0, 0, 0, 0, 0, 0, 0⟩ }

/-- Concrete matched report for the C7 witness. -/
noncomputable def repC7 : AggregatedReport :=
  { geohash := encodeGeohash 19 72 7, locationLat := 19, locationLng := 72
    defectType := DefectType.speed_breaker, averageSeverity := 5
    reportCount := 2, uniqueUsers := [("userC")], firstReported := 50
    lastReported := 60, credibilityScore := 3 / 10 }

/-- Concrete follow-up detection for the C7 witness, at the same point. -/
noncomputable def detC7 : Detection :=
  { sessionId := ("sessD"), userId := ("userD"), timestamp := 2000
    locationLat := 19, locationLng := 72
    defectType := DefectType.speed_breaker, confidence := 8 / 10, severity := 3
    processedWindow := ⟨0, 0, 0, 0, 0, 0, 0, 0⟩ }

/-! ## Helper lemmas -/

lemma foldl_add_sq (l : List ℝ) (a : ℝ) :
    l.foldl (fun sum v => sum + v ^ 2) a = a + (l.map (fun v => v ^ 2)).sum := by
  induction l generalizing a with
  | nil => simp
  | cons x xs ih => simp [ih, add_assoc]

/-! ## C9 : root-mean-square -/

/-- C9: `calculateRMS` on the empty list is 0; `calculateRMS [3,4]`
equals `sqrt 12.5`; and on every nonempty list it is the square root of
the mean of the squares of the elements. -/
theorem calculateRMS_spec :
    calculateRMS [] = 0 ∧
    calculateRMS [3, 4] = Real.sqrt 12.5 ∧
    ∀ values : List ℝ, values ≠ [] →
      calculateRMS values =
        Real.sqrt ((values.map (fun v => v ^ 2)).sum / values.length) := by
  refine ⟨by simp [calculateRMS], ?_, ?_⟩
  · rw [calculateRMS]
    norm_num [foldl_add_sq]
  · intro values hv
    rw [calculateRMS, if_neg (by simpa [List.length_eq_zero] using hv),
      foldl_add_sq, zero_add]

/-- Witness for C9: the general nonempty-list clause evaluated at `[3, 4]`. -/
theorem calculateRMS_spec_witness :
    calculateRMS [3, 4] =
      Real.sqrt ((([3, 4] : List ℝ).map (fun v => v ^ 2)).sum /
        ([3, 4] : List ℝ).length) :=
  calculateRMS_spec.2.2 [3, 4] (by simp)

/-! ## C4 : retention sweeper -/

/-- C4: one sweeper run at wall clock `now` retains a report exactly when it
is not (`reportCount = 1` and `lastReported` older than the 30-day cutoff) —
so a `reportCount = 1` report older than 30 days is deleted, a younger one
is retained, and any `reportCount ≥ 2` report is retained regardless of age —
and a second run at the same instant deletes nothing. -/
theorem cleanupOldDetections_spec :
    (∀ (now : ℚ) (store : List AggregatedReport) (r : AggregatedReport),
        r ∈ cleanupOldDetections now store ↔
          r ∈ store ∧
            ¬(r.reportCount = 1 ∧
              r.lastReported < now - 30 * 24 * 60 * 60 * 1000)) ∧
    ∀ (now : ℚ) (store : List AggregatedReport),
        cleanupOldDetections now (cleanupOldDetections now store) =
          cleanupOldDetections now store := by
  constructor
  · intro now store r
    simp only [cleanupOldDetections, List.mem_filter, decide_eq_true_eq]
  · intro now store
    simp [cleanupOldDetections, List.filter_filter]

/-! ## C10 : dashboard persistence gate -/

/-- C10: with a live session and user, `handleProcessedWindow` persists a
detection iff the classification is not `normal` and its confidence reaches
`DEFAULT_CONFIG.confidenceThreshold` (which is 0.7); in particular a
non-`normal` classification below the threshold is silently discarded. -/
theorem handleProcessedWindow_threshold_gate :
    DEFAULT_CONFIG.confidenceThreshold = 7 / 10 ∧
    (∀ (sid uid : String) (w : ProcessedWindow) (result : DetectionResult),
        (handleProcessedWindow (some sid) (some uid) w result ≠ none ↔
          result.defectType ≠ DefectType.normal ∧
            DEFAULT_CONFIG.confidenceThreshold ≤ result.confidence)) ∧
    ∀ (sid uid : String) (w : ProcessedWindow) (result : DetectionResult),
        result.defectType ≠ DefectType.normal →
        result.confidence < DEFAULT_CONFIG.confidenceThreshold →
        handleProcessedWindow (some sid) (some uid) w result = none := by
  refine ⟨rfl, ?_, ?_⟩
  · intro sid uid w result
    by_cases h : result.defectType ≠ DefectType.normal ∧
        DEFAULT_CONFIG.confidenceThreshold ≤ result.confidence
    · simp only [handleProcessedWindow, if_pos h]
      simpa using h
    · simp only [handleProcessedWindow, if_neg h]
      simpa using h
  · intro sid uid w result h1 h2
    simp only [handleProcessedWindow, if_neg]
    rw [if_neg]
    rintro ⟨-, hc⟩
    exact absurd h2 (not_lt.mpr hc)

/-- Witness for C10: a pothole classification with confidence 0.5 (below
the 0.7 default threshold) is not persisted. -/
theorem handleProcessedWindow_threshold_gate_witness :
    handleProcessedWindow (some ("session1")) (some ("user1"))
      ⟨0, 0, 0, 0, 0, 0, 0, 0⟩
      ⟨DefectType.pothole, 1 / 2, 5⟩ = none :=
  handleProcessedWindow_threshold_gate.2.2 ("session1") ("user1") _ _
    (by decide) (by norm_num [DEFAULT_CONFIG])

/-! ## C8 : geohash determinism and prefix stability -/

lemma encodeGeohashAux_add (lat lng : ℚ) (m n : ℕ) (s : GeohashState) :
    encodeGeohashAux lat lng (m + n) s =
      ((encodeGeohashAux lat lng m s).1 ++
        (encodeGeohashAux lat lng n (encodeGeohashAux lat lng m s).2).1,
       (encodeGeohashAux lat lng n (encodeGeohashAux lat lng m s).2).2) := by
  induction m generalizing s with
  | zero => simp [encodeGeohashAux]
  | succ k ih =>
    have hsum : k + 1 + n = (k + n) + 1 := by omega
    rw [hsum]
    simp only [encodeGeohashAux]
    rw [ih]
    simp

lemma geohashStep_emit (lat lng : ℚ) (s : GeohashState) (h : s.bit = 4) :
    (geohashStep lat lng s).1.bit = 0 ∧
      ∃ c, (geohashStep lat lng s).2 = some c := by
  unfold geohashStep
  split_ifs <;> simp_all

lemma geohashStep_noemit (lat lng : ℚ) (s : GeohashState) (h : s.bit + 1 ≠ 5) :
    (geohashStep lat lng s).1.bit = s.bit + 1 ∧
      (geohashStep lat lng s).2 = none := by
  unfold geohashStep
  split_ifs <;> simp_all

lemma encodeGeohashAux_length (lat lng : ℚ) :
    ∀ (n : ℕ) (s : GeohashState), s.bit < 5 →
      (encodeGeohashAux lat lng n s).1.length = (s.bit + n) / 5 := by
  intro n
  induction n with
  | zero =>
    intro s hs
    simp [encodeGeohashAux, Nat.div_eq_of_lt hs]
  | succ k ih =>
    intro s hs
    simp only [encodeGeohashAux]
    by_cases h4 : s.bit = 4
    · obtain ⟨hbit, c, hc⟩ := geohashStep_emit lat lng s h4
      rw [hc]
      have := ih (geohashStep lat lng s).1 (by omega)
      rw [hbit] at this
      simp only [Option.toList_some, List.singleton_append, List.length_cons, this]
      omega
    · obtain ⟨hbit, hc⟩ := geohashStep_noemit lat lng s (by omega)
      rw [hc]
      have := ih (geohashStep lat lng s).1 (by omega)
      rw [hbit] at this
      simp only [Option.toList_none, List.nil_append, this]
      congr 1
      omega

/-- C8: geohash encoding is a deterministic (pure) function of
`(lat, lng, precision)`, and is prefix-stable: the precision-5 encoding is
the first 5 characters of the precision-7 encoding. -/
theorem encodeGeohash_prefix_stable (lat lng : ℚ) :
    encodeGeohash lat lng 5 = (encodeGeohash lat lng 7).take 5 := by
  unfold encodeGeohash
  have h35 : 5 * 7 = 5 * 5 + 10 := by norm_num
  rw [h35, encodeGeohashAux_add]
  have hlen : (encodeGeohashAux lat lng (5 * 5) initGeohashState).1.length = 5 := by
    rw [encodeGeohashAux_length lat lng (5 * 5) initGeohashState
      (by simp [initGeohashState])]
    norm_num [initGeohashState]
  rw [List.take_left' hlen]

/-! ## Aggregation engine lemmas -/

lemma atan2_zero_one : atan2 0 1 = 0 := by
  unfold atan2
  rw [if_pos one_pos]
  simp

lemma calculateDistance_self (lat lng : ℚ) :
    calculateDistance lat lng lat lng = 0 := by
  simp [calculateDistance, atan2_zero_one]

lemma findMatch_eq_none (lat lng : ℚ) (dt : DefectType) (geo5 : List Char)
    (store : List AggregatedReport)
    (h : ∀ r ∈ store, r.defectType = dt →
      ¬(calculateDistance lat lng r.locationLat r.locationLng ≤ 25)) :
    ∀ i, findMatch lat lng dt geo5 i store = none := by
  induction store with
  | nil => intro i; rfl
  | cons r rest ih =>
    intro i
    rw [findMatch, if_neg]
    · exact ih (fun x hx => h x (List.mem_cons_of_mem _ hx)) (i + 1)
    · rintro ⟨-, hdtEq, hdist⟩
      exact h r (List.mem_cons_self _ _) hdtEq hdist

/-! ## C2 : aggregation, no-match case creates one fresh report -/

/-- C2: when the detection is not `normal` and no stored report of the same
defect type lies within 25 meters (haversine), `aggregateDetection` appends
exactly one new report, with `reportCount = 1`, `averageSeverity` the
severity of the detection, `uniqueUsers = [userId]`,
`firstReported = lastReported = detection.timestamp`,
`credibilityScore = 0.3`, and the precision-7 geohash of the location of
the detection. -/
theorem aggregateDetection_no_match_creates
    (store : List AggregatedReport) (d : Detection)
    (hdt : d.defectType ≠ DefectType.normal)
    (hfar : ∀ r ∈ store, r.defectType = d.defectType →
      ¬(calculateDistance d.locationLat d.locationLng
          r.locationLat r.locationLng ≤ 25)) :
    aggregateDetection store d =
      store ++ [newReport d (encodeGeohash d.locationLat d.locationLng 7)] ∧
    (newReport d (encodeGeohash d.locationLat d.locationLng 7)).reportCount = 1 ∧
    (newReport d (encodeGeohash d.locationLat d.locationLng 7)).averageSeverity
      = d.severity ∧
    (newReport d (encodeGeohash d.locationLat d.locationLng 7)).uniqueUsers
      = [d.userId] ∧
    (newReport d (encodeGeohash d.locationLat d.locationLng 7)).firstReported
      = d.timestamp ∧
    (newReport d (encodeGeohash d.locationLat d.locationLng 7)).lastReported
      = d.timestamp ∧
    (newReport d (encodeGeohash d.locationLat d.locationLng 7)).credibilityScore
      = 3 / 10 ∧
    (newReport d (encodeGeohash d.locationLat d.locationLng 7)).geohash
      = encodeGeohash d.locationLat d.locationLng 7 := by
  refine ⟨?_, rfl, rfl, rfl, rfl, rfl, rfl, rfl⟩
  have hnone := findMatch_eq_none d.locationLat d.locationLng d.defectType
    ((encodeGeohash d.locationLat d.locationLng 7).take 5) store hfar 0
  rw [aggregateDetection, if_neg hdt]
  simp only [hnone]

/-- Witness for C2: on the empty store, one pothole detection at
`(28.6139, 77.2090)` creates exactly one report. -/
theorem aggregateDetection_no_match_creates_witness :
    aggregateDetection []
      { sessionId := ("sessA"), userId := ("userA"), timestamp := 1000
        locationLat := 286139 / 10000, locationLng := 77209 / 1000
        defectType := DefectType.pothole, confidence := 9 / 10, severity := 8
        processedWindow := ⟨0, 0, 0, 0, 0, 0, 0, 0⟩ } =
      [newReport
        { sessionId := ("sessA"), userId := ("userA"), timestamp := 1000
          locationLat := 286139 / 10000, locationLng := 77209 / 1000
          defectType := DefectType.pothole, confidence := 9 / 10, severity := 8
          processedWindow := ⟨0, 0, 0, 0, 0, 0, 0, 0⟩ }
        (encodeGeohash (286139 / 10000) (77209 / 1000) 7)] :=
  (aggregateDetection_no_match_creates [] _ (by decide) (by simp)).1

/-! ## C1 : aggregation, matched case updates in place -/

/-- C1: when the detection is not `normal` and `findMatch` finds a report
(first same-type candidate within 25 meters in query order), that report is
updated in place: `userId` appended to `uniqueUsers` only if absent,
`reportCount` incremented, `averageSeverity` the running mean,
`lastReported` the timestamp of the detection, and `credibilityScore`
recomputed as `min(1, 0.3 + uniqueUsers.length * 0.15 +
log10(reportCount) * 0.2)`, which never exceeds 1. -/
theorem aggregateDetection_matched_update
    (store : List AggregatedReport) (d : Detection) (i : ℕ)
    (r : AggregatedReport)
    (hdt : d.defectType ≠ DefectType.normal)
    (hmatch : findMatch d.locationLat d.locationLng d.defectType
      ((encodeGeohash d.locationLat d.locationLng 7).take 5) 0 store
      = some (i, r)) :
    aggregateDetection store d = store.set i (updatedReport r d) ∧
    (updatedReport r d).uniqueUsers =
      (if d.userId ∈ r.uniqueUsers then r.uniqueUsers
       else r.uniqueUsers ++ [d.userId]) ∧
    (updatedReport r d).reportCount = r.reportCount + 1 ∧
    (updatedReport r d).averageSeverity =
      (r.averageSeverity * r.reportCount + d.severity) /
        (((r.reportCount : ℚ)) + 1) ∧
    (updatedReport r d).lastReported = d.timestamp ∧
    (updatedReport r d).credibilityScore =
      min 1 ((3 / 10 : ℝ) +
        ((updatedReport r d).uniqueUsers.length : ℝ) * (15 / 100) +
        Real.logb 10 ((r.reportCount + 1 : ℕ) : ℝ) * (2 / 10)) ∧
    (updatedReport r d).credibilityScore ≤ 1 := by
  refine ⟨?_, rfl, rfl, ?_, rfl, rfl, min_le_left _ _⟩
  · rw [aggregateDetection, if_neg hdt]
    simp only [hmatch]
  · show (r.averageSeverity * r.reportCount + d.severity) /
        ((r.reportCount + 1 : ℕ) : ℚ) = _
    norm_cast

lemma findMatch_repC1 : findMatch 28 77 DefectType.pothole
    ((encodeGeohash 28 77 7).take 5) 0 [repC1] = some (0, repC1) := by
  rw [findMatch, if_pos]
  exact ⟨ List.take_prefix 5 _, rfl, by norm_num [repC1, calculateDistance_self]⟩

/-- Witness for C1: a second pothole detection from a second user at the
same point updates the stored report in place, and the recomputed
credibility score stays at most 1. -/
theorem aggregateDetection_matched_update_witness :
    aggregateDetection [repC1] detC1 = [updatedReport repC1 detC1] ∧
    (updatedReport repC1 detC1).credibilityScore ≤ 1 :=
  ⟨(aggregateDetection_matched_update [repC1] detC1 0 repC1 (by decide)
      findMatch_repC1).1,
   (aggregateDetection_matched_update [repC1] detC1 0 repC1 (by decide)
      findMatch_repC1).2.2.2.2.2.2⟩

/-! ## C7 : frame condition of the matched update -/

/-- C7: the matched update writes only the five listed fields: the
location, defect type, geohash and firstReported are unchanged, and every
other slot of the store is untouched. -/
theorem aggregateDetection_frame_condition
    (store : List AggregatedReport) (d : Detection) (i : ℕ)
    (r : AggregatedReport)
    (hdt : d.defectType ≠ DefectType.normal)
    (hmatch : findMatch d.locationLat d.locationLng d.defectType
      ((encodeGeohash d.locationLat d.locationLng 7).take 5) 0 store
      = some (i, r)) :
    (updatedReport r d).locationLat = r.locationLat ∧
    (updatedReport r d).locationLng = r.locationLng ∧
    (updatedReport r d).defectType = r.defectType ∧
    (updatedReport r d).geohash = r.geohash ∧
    (updatedReport r d).firstReported = r.firstReported ∧
    aggregateDetection store d = store.set i (updatedReport r d) ∧
    ∀ j, j ≠ i → (aggregateDetection store d)[j]? = store[j]? := by
  refine ⟨rfl, rfl, rfl, rfl, rfl, ?_, ?_⟩
  · rw [aggregateDetection, if_neg hdt]
    simp only [hmatch]
  · intro j hj
    rw [aggregateDetection, if_neg hdt]
    simp only [hmatch]
    exact List.getElem?_set_ne (Ne.symm hj)

lemma findMatch_repC7 : findMatch 19 72 DefectType.speed_breaker
    ((encodeGeohash 19 72 7).take 5) 0 [repC7] = some (0, repC7) := by
  rw [findMatch, if_pos]
  exact ⟨ List.take_prefix 5 _, rfl, by norm_num [repC7, calculateDistance_self]⟩

/-- Witness for C7: on a concrete matched update the location, defect type,
geohash and firstReported fields are unchanged. -/
theorem aggregateDetection_frame_condition_witness :
    (updatedReport repC7 detC7).locationLat = repC7.locationLat ∧
    (updatedReport repC7 detC7).defectType = repC7.defectType ∧
    (updatedReport repC7 detC7).geohash = repC7.geohash ∧
    (updatedReport repC7 detC7).firstReported = repC7.firstReported :=
  ⟨(aggregateDetection_frame_condition [repC7] detC7 0 repC7 (by decide)
      findMatch_repC7).1,
   (aggregateDetection_frame_condition [repC7] detC7 0 repC7 (by decide)
      findMatch_repC7).2.2.1,
   (aggregateDetection_frame_condition [repC7] detC7 0 repC7 (by decide)
      findMatch_repC7).2.2.2.1,
   (aggregateDetection_frame_condition [repC7] detC7 0 repC7 (by decide)
      findMatch_repC7).2.2.2.2.1⟩

/-! ## C3 : emission gate -/

/-- C3: a completed window is handed to the callback iff all three gate
conditions hold (`averageSpeed`, `peakMagnitude` and `sampleCount` each
reach their thresholds); and a window whose readings all lack a GPS speed
gets `averageSpeed = 0`, so with a positive speed threshold it is never
emitted. -/
theorem shouldEmitWindow_gate_iff :
    (∀ (cfg : AppConfig) (w : ProcessedWindow),
        ShouldEmitWindow cfg w ↔
          cfg.minSpeedThreshold ≤ w.averageSpeed ∧
          cfg.magnitudeThreshold ≤ w.peakMagnitude ∧
          expectedSamples cfg ≤ (w.sampleCount : ℚ)) ∧
    ∀ (cfg : AppConfig) (readings : List SensorReading),
        readings ≠ [] →
        (∀ r ∈ readings, r.gps.speed = none) →
        (processWindow readings).averageSpeed = 0 ∧
        (0 < cfg.minSpeedThreshold →
          ¬ShouldEmitWindow cfg (processWindow readings)) := by
  constructor
  · intro cfg w
    unfold ShouldEmitWindow
    rw [not_lt, not_lt, not_lt]
  · intro cfg readings hne hnull
    have hspeeds : readings.filterMap (fun r => r.gps.speed) = [] :=
      List.filterMap_eq_nil_iff.mpr hnull
    have havg : (processWindow readings).averageSpeed = 0 := by
      simp [processWindow, hspeeds]
    refine ⟨havg, fun hpos hemit => hemit.1 ?_⟩
    rw [havg]
    exact hpos

/-- Witness for C3: a one-reading window with a null GPS speed has
`averageSpeed = 0` and fails the default gate. -/
theorem shouldEmitWindow_gate_iff_witness :
    (processWindow [⟨0, 0, 0, 0, ⟨0, 0, 0, none⟩⟩]).averageSpeed = 0 ∧
    ¬ShouldEmitWindow DEFAULT_CONFIG
      (processWindow [⟨0, 0, 0, 0, ⟨0, 0, 0, none⟩⟩]) :=
  ⟨(shouldEmitWindow_gate_iff.2 DEFAULT_CONFIG _ (by simp) (by simp)).1,
   (shouldEmitWindow_gate_iff.2 DEFAULT_CONFIG _ (by simp) (by simp)).2
     (by norm_num [DEFAULT_CONFIG])⟩

/-! ## Signal-processor windowing lemmas (for C5 and C6) -/

lemma mem_headD (l : List SensorReading) (h : l ≠ []) :
    l.headD defaultReading ∈ l := by
  cases l with
  | nil => exact absurd rfl h
  | cons a t => simp

lemma mem_getLastD (l : List SensorReading) (h : l ≠ []) :
    l.getLastD defaultReading ∈ l := by
  rw [List.getLastD_eq_getLast?, List.getLast?_eq_getLast l h]
  exact List.getLast_mem h

lemma wStart_filter_head (p : SensorReading → Bool) (a : SensorReading)
    (t : List SensorReading) (hpa : p a = true) :
    wStart (List.filter p (a :: t)) = a.timestamp := by
  rw [List.filter_cons_of_pos hpa]; rfl

lemma checkWindowComplete_none (cfg : AppConfig) (buf buf2 : List SensorReading)
    (h : checkWindowComplete cfg buf = (buf2, none)) : buf2 = buf := by
  simp only [checkWindowComplete] at h
  split_ifs at h <;> simp_all

lemma checkWindowComplete_some (cfg : AppConfig) (buf buf2 w : List SensorReading)
    (h : checkWindowComplete cfg buf = (buf2, some w)) :
    w ≠ [] ∧ 0 < cfg.windowDurationMs ∧
      (∀ r ∈ w, r ∈ buf) ∧
      (∀ r ∈ w, wStart w ≤ r.timestamp ∧
        r.timestamp < wStart w + cfg.windowDurationMs) ∧
      (∀ r ∈ buf2, r ∈ buf) ∧
      (∀ r ∈ buf2, wStart w + cfg.windowDurationMs / 2 ≤ r.timestamp) ∧
      ∃ x ∈ buf, wStart w + cfg.windowDurationMs ≤ x.timestamp := by
  simp only [checkWindowComplete] at h
  split_ifs at h with hlen hspan hcnt
  · simp at h
  · rw [Prod.mk.injEq, Option.some.injEq] at h
    obtain ⟨hbuf2, hw⟩ := h
    subst hbuf2
    subst hw
    rcases buf with _ | ⟨a, t⟩
    · simp at hlen
    · simp only [List.headD_cons] at hcnt hspan ⊢
      have hwne : List.filter
          (fun r => decide (a.timestamp ≤ r.timestamp ∧
            r.timestamp < a.timestamp + cfg.windowDurationMs)) (a :: t) ≠ [] :=
        List.length_pos.mp hcnt
      have hdur : 0 < cfg.windowDurationMs := by
        obtain ⟨r, hr⟩ := List.exists_mem_of_ne_nil _ hwne
        have hp := (List.mem_filter.mp hr).2
        rw [decide_eq_true_eq] at hp
        linarith [hp.1, hp.2]
      have hpa : (fun r => decide (a.timestamp ≤ r.timestamp ∧
          r.timestamp < a.timestamp + cfg.windowDurationMs)) a = true := by
        rw [decide_eq_true_eq]
        exact ⟨le_refl _, by linarith⟩
      have hstart : wStart (List.filter
          (fun r => decide (a.timestamp ≤ r.timestamp ∧
            r.timestamp < a.timestamp + cfg.windowDurationMs)) (a :: t)) =
          a.timestamp := wStart_filter_head _ a t hpa
      rw [hstart]
      refine ⟨hwne, hdur, ?_, ?_, ?_, ?_, ?_⟩
      · intro r hr; exact List.mem_of_mem_filter hr
      · intro r hr
        have hp := (List.mem_filter.mp hr).2
        rw [decide_eq_true_eq] at hp
        exact hp
      · intro r hr; exact List.mem_of_mem_filter hr
      · intro r hr
        have hp := (List.mem_filter.mp hr).2
        rw [decide_eq_true_eq] at hp
        exact hp
      · refine ⟨(a :: t).getLastD defaultReading,
          mem_getLastD _ (List.cons_ne_nil a t), ?_⟩
        linarith
  · simp at h
  · simp at h

lemma runProcessor_nil (cfg : AppConfig) (buf : List SensorReading) :
    runProcessor cfg [] buf = (buf, []) := rfl

lemma runProcessor_cons (cfg : AppConfig) (p : ℚ × SensorReading)
    (rest : List (ℚ × SensorReading)) (buf : List SensorReading) :
    runProcessor cfg (p :: rest) buf =
      ((runProcessor cfg rest (addReading cfg p.1 p.2 buf).1).1,
       (addReading cfg p.1 p.2 buf).2.toList ++
         (runProcessor cfg rest (addReading cfg p.1 p.2 buf).1).2) := rfl

lemma runProcessor_window_facts (cfg : AppConfig) :
    ∀ (inputs : List (ℚ × SensorReading)) (buf : List SensorReading),
      ∀ w ∈ (runProcessor cfg inputs buf).2,
        w ≠ [] ∧ 0 < cfg.windowDurationMs ∧
        ∀ r ∈ w, wStart w ≤ r.timestamp ∧
          r.timestamp < wStart w + cfg.windowDurationMs := by
  intro inputs
  induction inputs with
  | nil => intro buf w hw; simp [runProcessor_nil] at hw
  | cons p rest ih =>
    intro buf w hw
    rcases haddeq : addReading cfg p.1 p.2 buf with ⟨buf2, ow⟩
    have h1 : (addReading cfg p.1 p.2 buf).1 = buf2 := by rw [haddeq]
    have h2 : (addReading cfg p.1 p.2 buf).2 = ow := by rw [haddeq]
    rw [runProcessor_cons, h1, h2] at hw
    simp only [List.mem_append] at hw
    rcases hw with hw | hw
    · rcases ow with _ | w2
      · simp at hw
      · simp only [Option.toList_some, List.mem_singleton] at hw
        subst hw
        rw [addReading] at haddeq
        obtain ⟨ha, hb, -, hd, -, -, -⟩ :=
          checkWindowComplete_some cfg _ buf2 w haddeq
        exact ⟨ha, hb, hd⟩
    · exact ih buf2 w hw

lemma runProcessor_invariant (cfg : AppConfig) :
    ∀ (inputs : List (ℚ × SensorReading)) (buf : List SensorReading) (t0 : ℚ),
      List.Pairwise (fun p q => p.2.timestamp < q.2.timestamp) inputs →
      (∀ b ∈ buf, ∀ p ∈ inputs, b.timestamp < p.2.timestamp) →
      (∀ b ∈ buf, t0 ≤ b.timestamp) →
      (∀ p ∈ inputs, t0 ≤ p.2.timestamp) →
      (∀ w ∈ (runProcessor cfg inputs buf).2, t0 ≤ wStart w) ∧
      List.Pairwise
        (fun w w2 => wStart w + cfg.windowDurationMs / 2 ≤ wStart w2)
        (runProcessor cfg inputs buf).2 := by
  intro inputs
  induction inputs with
  | nil =>
    intro buf t0 _ _ _ _
    constructor
    · intro w hw; simp [runProcessor_nil] at hw
    · simp [runProcessor_nil]
  | cons p rest ih =>
    intro buf t0 hinc hsep ht0buf ht0in
    obtain ⟨hp_lt, hinc2⟩ := List.pairwise_cons.mp hinc
    rcases haddeq : addReading cfg p.1 p.2 buf with ⟨buf2, ow⟩
    have h1 : (addReading cfg p.1 p.2 buf).1 = buf2 := by rw [haddeq]
    have h2 : (addReading cfg p.1 p.2 buf).2 = ow := by rw [haddeq]
    rw [addReading] at haddeq
    have hprune_sub : ∀ r ∈ pruneOldReadings cfg p.1 (buf ++ [p.2]),
        r ∈ buf ++ [p.2] := fun r hr => List.mem_of_mem_filter hr
    rcases ow with _ | w
    · -- no window completes at this step
      have hbuf2 : buf2 = pruneOldReadings cfg p.1 (buf ++ [p.2]) :=
        checkWindowComplete_none cfg _ buf2 haddeq
      have hbuf2_sub : ∀ r ∈ buf2, r ∈ buf ++ [p.2] := by
        rw [hbuf2]; exact hprune_sub
      have hsep2 : ∀ b ∈ buf2, ∀ q ∈ rest, b.timestamp < q.2.timestamp := by
        intro b hb q hq
        rcases List.mem_append.mp (hbuf2_sub b hb) with hbb | hbp
        · exact hsep b hbb q (List.mem_cons_of_mem _ hq)
        · rw [List.mem_singleton] at hbp; subst hbp
          exact hp_lt q hq
      have ht0buf2 : ∀ b ∈ buf2, t0 ≤ b.timestamp := by
        intro b hb
        rcases List.mem_append.mp (hbuf2_sub b hb) with hbb | hbp
        · exact ht0buf b hbb
        · rw [List.mem_singleton] at hbp; subst hbp
          exact ht0in p (List.mem_cons_self _ _)
      have ht0in2 : ∀ q ∈ rest, t0 ≤ q.2.timestamp :=
        fun q hq => ht0in q (List.mem_cons_of_mem _ hq)
      have hrec := ih buf2 t0 hinc2 hsep2 ht0buf2 ht0in2
      rw [runProcessor_cons, h1, h2]
      simpa using hrec
    · -- a window w completes at this step
      obtain ⟨hwne, hdur, hwsub, hwbounds, hbuf2sub, hslide, x, hxmem, hxbound⟩ :=
        checkWindowComplete_some cfg _ buf2 w haddeq
      have hw_in_src : ∀ r ∈ w, r ∈ buf ++ [p.2] :=
        fun r hr => hprune_sub r (hwsub r hr)
      have ht0w : t0 ≤ wStart w := by
        have hhd := mem_headD w hwne
        unfold wStart
        rcases List.mem_append.mp (hw_in_src _ hhd) with hbb | hbp
        · exact ht0buf _ hbb
        · rw [List.mem_singleton] at hbp
          rw [hbp]
          exact ht0in p (List.mem_cons_self _ _)
      have hx_src := hprune_sub x hxmem
      have ht0in2 : ∀ q ∈ rest,
          wStart w + cfg.windowDurationMs / 2 ≤ q.2.timestamp := by
        intro q hq
        have hxq : x.timestamp < q.2.timestamp := by
          rcases List.mem_append.mp hx_src with hbb | hbp
          · exact hsep x hbb q (List.mem_cons_of_mem _ hq)
          · rw [List.mem_singleton] at hbp; rw [hbp] at *
            exact hp_lt q hq
        linarith
      have hsep2 : ∀ b ∈ buf2, ∀ q ∈ rest, b.timestamp < q.2.timestamp := by
        intro b hb q hq
        rcases List.mem_append.mp (hprune_sub b (hbuf2sub b hb)) with hbb | hbp
        · exact hsep b hbb q (List.mem_cons_of_mem _ hq)
        · rw [List.mem_singleton] at hbp; subst hbp
          exact hp_lt q hq
      have hrec := ih buf2 (wStart w + cfg.windowDurationMs / 2)
        hinc2 hsep2 hslide ht0in2
      rw [runProcessor_cons, h1, h2]
      simp only [Option.toList_some, List.singleton_append]
      constructor
      · intro w2 hw2
        rcases List.mem_cons.mp hw2 with he | hmem
        · rw [he]; exact ht0w
        · have := hrec.1 w2 hmem
          linarith
      · rw [List.pairwise_cons]
        exact ⟨fun w2 hw2 => hrec.1 w2 hw2, hrec.2⟩

lemma runProcessor_gap_pairwise (cfg : AppConfig)
    (inputs : List (ℚ × SensorReading))
    (hinc : List.Pairwise (fun p q => p.2.timestamp < q.2.timestamp) inputs) :
    List.Pairwise
      (fun w w2 => wStart w + cfg.windowDurationMs / 2 ≤ wStart w2)
      (runProcessor cfg inputs []).2 := by
  rcases inputs with _ | ⟨p, rest⟩
  · simp [runProcessor_nil]
  · refine (runProcessor_invariant cfg (p :: rest) [] p.2.timestamp hinc
      (by simp) (by simp) ?_).2
    intro q hq
    rcases List.mem_cons.mp hq with he | hm
    · rw [he]
    · exact le_of_lt ((List.pairwise_cons.mp hinc).1 q hm)

/-! ## C5 : emitted windows are nonempty and pairwise distinct -/

/-- C5: over any input sequence with strictly increasing reading timestamps,
every emitted window has `sampleCount ≥ 1`, and no two emitted windows share
the same `(startTime, endTime)` pair. -/
theorem signalProcessor_emitted_windows (cfg : AppConfig)
    (inputs : List (ℚ × SensorReading))
    (hinc : List.Pairwise (fun p q => p.2.timestamp < q.2.timestamp) inputs) :
    (∀ pw ∈ emittedWindows cfg inputs, 1 ≤ pw.sampleCount) ∧
    List.Pairwise
      (fun a b => ¬(a.startTime = b.startTime ∧ a.endTime = b.endTime))
      (emittedWindows cfg inputs) := by
  constructor
  · intro pw hpw
    have hpw2 := List.mem_of_mem_filter hpw
    rw [List.mem_map] at hpw2
    obtain ⟨w, hw, hweq⟩ := hpw2
    obtain ⟨hwne, -, -⟩ := runProcessor_window_facts cfg inputs [] w hw
    rw [← hweq]
    show 1 ≤ w.length
    exact List.length_pos.mpr hwne
  · apply List.Pairwise.filter
    rw [List.pairwise_map]
    refine List.Pairwise.imp_of_mem ?_ (runProcessor_gap_pairwise cfg inputs hinc)
    intro w w2 hw hw2 hrel
    obtain ⟨-, hdur, -⟩ := runProcessor_window_facts cfg inputs [] w hw
    rintro ⟨hst, -⟩
    have heq : wStart w = wStart w2 := hst
    linarith

/-- Witness for C5: a concrete strictly-increasing two-reading run. -/
theorem signalProcessor_emitted_windows_witness :
    (∀ pw ∈ emittedWindows DEFAULT_CONFIG
        [(0, ⟨0, 0, 0, 0, ⟨0, 0, 0, none⟩⟩),
         (1500, ⟨1500, 0, 0, 0, ⟨0, 0, 0, none⟩⟩)],
      1 ≤ pw.sampleCount) ∧
    List.Pairwise
      (fun a b => ¬(a.startTime = b.startTime ∧ a.endTime = b.endTime))
      (emittedWindows DEFAULT_CONFIG
        [(0, ⟨0, 0, 0, 0, ⟨0, 0, 0, none⟩⟩),
         (1500, ⟨1500, 0, 0, 0, ⟨0, 0, 0, none⟩⟩)]) :=
  signalProcessor_emitted_windows DEFAULT_CONFIG _
    (by norm_num [List.pairwise_cons])

/-! ## C6 : how many completed windows may contain one reading -/

lemma c6_run_eq :
    (runProcessor DEFAULT_CONFIG
        [(0, ⟨0, 0, 0, 0, ⟨0, 0, 0, none⟩⟩),
         (1500, ⟨1500, 0, 0, 0, ⟨0, 0, 0, none⟩⟩)] []).2 =
      [[⟨0, 0, 0, 0, ⟨0, 0, 0, none⟩⟩]] := by
  norm_num [runProcessor, addReading, pruneOldReadings, checkWindowComplete,
    DEFAULT_CONFIG, List.filter]

/-- C6 counterexample: the claim says every reading fed to the processor
lands in the selected readings of exactly two completed windows.  In the
concrete run `[(0, r at 0), (1500, r at 1500)]` with the default
configuration, the run completes exactly one window `[r at 0]`, so the
reading with timestamp 0 is selected by exactly one completed window, not
two. -/
theorem reading_in_exactly_two_windows_false :
    ((runProcessor DEFAULT_CONFIG
        [(0, ⟨0, 0, 0, 0, ⟨0, 0, 0, none⟩⟩),
         (1500, ⟨1500, 0, 0, 0, ⟨0, 0, 0, none⟩⟩)] []).2.countP
      (fun w => decide (∃ r ∈ w, r.timestamp = (0 : ℚ)))) ≠ 2 := by
  rw [c6_run_eq]
  norm_num [List.countP_cons]

/-- C6 amended: under the 50%-overlap slide policy, a reading fed to the
processor is included in the selected readings of at most two completed
windows (the claimed "exactly two" fails, e.g. for trailing readings). -/
theorem reading_in_at_most_two_windows (cfg : AppConfig)
    (inputs : List (ℚ × SensorReading)) (t : ℚ)
    (sub : List (List SensorReading))
    (hinc : List.Pairwise (fun p q => p.2.timestamp < q.2.timestamp) inputs)
    (hsub : sub.Sublist (runProcessor cfg inputs []).2)
    (hall : ∀ w ∈ sub, ∃ r ∈ w, r.timestamp = t) :
    sub.length ≤ 2 := by
  have hgap := (runProcessor_gap_pairwise cfg inputs hinc).sublist hsub
  rcases sub with _ | ⟨w1, _ | ⟨w2, _ | ⟨w3, rest⟩⟩⟩
  · simp
  · simp
  · simp
  · exfalso
    obtain ⟨hrel1, hgap2⟩ := List.pairwise_cons.mp hgap
    obtain ⟨hrel2, -⟩ := List.pairwise_cons.mp hgap2
    have h12 : wStart w1 + cfg.windowDurationMs / 2 ≤ wStart w2 :=
      hrel1 w2 (List.mem_cons_self _ _)
    have h23 : wStart w2 + cfg.windowDurationMs / 2 ≤ wStart w3 :=
      hrel2 w3 (List.mem_cons_self _ _)
    obtain ⟨r1, hr1w, hr1t⟩ := hall w1 (List.mem_cons_self _ _)
    obtain ⟨r3, hr3w, hr3t⟩ := hall w3
      (List.mem_cons_of_mem _ (List.mem_cons_of_mem _ (List.mem_cons_self _ _)))
    have hw1mem : w1 ∈ (runProcessor cfg inputs []).2 :=
      hsub.subset (List.mem_cons_self _ _)
    have hw3mem : w3 ∈ (runProcessor cfg inputs []).2 :=
      hsub.subset (List.mem_cons_of_mem _
        (List.mem_cons_of_mem _ (List.mem_cons_self _ _)))
    obtain ⟨-, -, hb1⟩ := runProcessor_window_facts cfg inputs [] w1 hw1mem
    obtain ⟨-, -, hb3⟩ := runProcessor_window_facts cfg inputs [] w3 hw3mem
    have hub := (hb1 r1 hr1w).2
    have hlb := (hb3 r3 hr3w).1
    rw [hr1t] at hub
    rw [hr3t] at hlb
    linarith

/-- Witness for the amended C6: the concrete one-window run, taking the
whole completed-window list as the sublist. -/
theorem reading_in_at_most_two_windows_witness :
    ((runProcessor DEFAULT_CONFIG
        [(0, ⟨0, 0, 0, 0, ⟨0, 0, 0, none⟩⟩),
         (1500, ⟨1500, 0, 0, 0, ⟨0, 0, 0, none⟩⟩)] []).2).length ≤ 2 :=
  reading_in_at_most_two_windows DEFAULT_CONFIG
    [(0, ⟨0, 0, 0, 0, ⟨0, 0, 0, none⟩⟩),
     (1500, ⟨1500, 0, 0, 0, ⟨0, 0, 0, none⟩⟩)] 0 _
    (by norm_num [List.pairwise_cons]) (List.Sublist.refl _)
    (by rw [c6_run_eq]; simp)

end RoadMonitor
